import Mathlib

/-!
Verification of the Sparta provisioning workflow (`provision.go`).

A shallow embedding of the provisioning workflow of the Sparta repository:
the workflow engine, IAM role resolution, the artifact upload step, template
synthesis and the stack-convergence helpers, together with theorems settling
the behavioural claims about them.

External collaborators (the AWS SDK, the CloudFormation template library's
export fragments, the embedded-resource table) are modelled as an explicit
environment of oracles; every remote or file-system interaction performed by
the embedded code is recorded in an explicit effect trace so that claims of
the form "no call of kind K is issued" become statements about traces.
-/

namespace Sparta

/-- Is the first character list a prefix of the second? -/
def charsLeadingMatch : List Char → List Char → Bool
  | [], _ => true
  | _ :: _, [] => false
  | a :: as, b :: bs => a = b && charsLeadingMatch as bs

/-- Does the first character list occur contiguously inside the second? -/
def charsContainsSub (sub : List Char) : List Char → Bool
  | [] => charsLeadingMatch sub []
  | c :: rest => charsLeadingMatch sub (c :: rest) || charsContainsSub sub rest

/-- Go's `strings.Contains`, on the underlying character lists. -/
def goStringContains (s sub : String) : Bool :=
  charsContainsSub sub.data s.data

/-- Go's `filepath.Base`: the last path component. -/
def filepathBase (p : String) : String :=
  (p.splitOn "/").getLastD ""

/-- Lookup in an association list used to model a Go `map` read. -/
def listLookup {α : Type} (m : List (String × α)) (k : String) : Option α :=
  match m with
  | [] => none
  | (k0, v) :: rest => if k0 = k then some v else listLookup rest k

/-- Insert-or-overwrite in an association list, modelling a Go `map` write. -/
def listInsert {α : Type} (m : List (String × α)) (k : String) (v : α) :
    List (String × α) :=
  match m with
  | [] => [(k, v)]
  | (k0, v0) :: rest =>
      if k0 = k then (k0, v) :: rest else (k0, v0) :: listInsert rest k v

/-- Models `gocf.StringExpr`: either a literal string (a verified role ARN), a
`GetAtt` reference to an attribute of a template resource, or a `Ref`. -/
inductive StringExpr where
  | lit (s : String)
  | getAtt (logicalName attr : String)
  | ref (s : String)
deriving DecidableEq, Repr

/-- A value stored in a resource's `Metadata` block. -/
inductive MetaValue where
  | ref (s : String)
  | outputs (vals : List (String × String))
deriving DecidableEq, Repr

/-- One CloudFormation template resource: its type tag, its `DependsOn`
list and its `Metadata` block. -/
structure TemplateResource where
  resourceType : String
  dependsOn : List String := []
  metadata : List (String × MetaValue) := []
deriving DecidableEq, Repr

/-- One CloudFormation template output. -/
structure TemplateOutput where
  description : String
  value : StringExpr
deriving DecidableEq, Repr

/-- The in-progress CloudFormation template (`gocf.Template`): description,
logical-id-keyed resources and named outputs. -/
structure Template where
  description : String := ""
  resources : List (String × TemplateResource) := []
  outputs : List (String × TemplateOutput) := []
deriving DecidableEq, Repr

/-- Models `gocf.NewTemplate()`. -/
def newTemplate : Template := {}

/-- Models `template.AddResource(logicalID, resource)`. -/
def Template.addResource (t : Template) (logicalID : String)
    (r : TemplateResource) : Template :=
  { t with resources := t.resources ++ [(logicalID, r)] }

/-- An IAM role definition; `logicalName` models the repository's
`IAMRoleDefinition.logicalName()` (defined outside the provisioning file)
as opaque data attached to the definition. -/
structure IAMRoleDefinition where
  logicalName : String
deriving DecidableEq, Repr

/-- A function descriptor (`LambdaAWSInfo`): the fields the provisioning
workflow reads.  `roleName = ""` models an unset `RoleName`;
`roleDefinition = none` models a nil `RoleDefinition` pointer. -/
structure LambdaAWSInfo where
  lambdaFnName : String
  roleName : String := ""
  roleDefinition : Option IAMRoleDefinition := none
deriving DecidableEq, Repr

/-- An API Gateway descriptor, opaque to the workflow. -/
structure API where
  name : String
deriving DecidableEq, Repr

/-- An S3 site descriptor: the workflow reads only its resource path. -/
structure S3Site where
  resources : String
deriving DecidableEq, Repr

/-- Models `s3SiteContext`: the wrapper holding the (possibly absent) site
descriptor and, once uploaded, the storage key of its archive. -/
structure S3SiteCtx where
  s3Site : Option S3Site
  s3SiteLambdaZipKey : String := ""
deriving DecidableEq, Repr

/-- A registered rollback action (`createS3RollbackFunc` closure): the
bucket/key of the uploaded object and the captured no-op flag. -/
structure RollbackAction where
  s3Bucket : String
  s3Key : String
  noop : Bool
deriving DecidableEq, Repr

/-- The observable side effects of the workflow: remote AWS calls,
file-system operations and writes to the template output sink. -/
inductive Effect where
  | getRole (name : String)
  | getBucketLifecycle (bucket : String)
  | s3Upload (bucket key : String)
  | s3Delete (bucket key : String)
  | describeStacks (name : String)
  | createStack (name : String)
  | updateStack (name : String)
  | describeStackEvents (stackID : String)
  | goBuild
  | fileOpen (path : String)
  | fileRemove (path : String)
  | fileCreateTemp (prefixName : String)
  | writeSink (content : String)
deriving DecidableEq, Repr

----------------------------------------------------------------------------
-- Stack status classification (convergeStackState poll loop)
----------------------------------------------------------------------------

/-- Models `cloudformation.StackStatusCreateComplete`. -/
def StackStatusCreateComplete : String := "CREATE_COMPLETE"
/-- Models `cloudformation.StackStatusUpdateComplete`. -/
def StackStatusUpdateComplete : String := "UPDATE_COMPLETE"
/-- Models `cloudformation.StackStatusDeleteComplete`. -/
def StackStatusDeleteComplete : String := "DELETE_COMPLETE"
/-- Models `cloudformation.StackStatusCreateFailed`. -/
def StackStatusCreateFailed : String := "CREATE_FAILED"
/-- Models `cloudformation.StackStatusDeleteFailed`. -/
def StackStatusDeleteFailed : String := "DELETE_FAILED"
/-- Models `cloudformation.StackStatusRollbackFailed`. -/
def StackStatusRollbackFailed : String := "ROLLBACK_FAILED"
/-- Models `cloudformation.StackStatusRollbackComplete`. -/
def StackStatusRollbackComplete : String := "ROLLBACK_COMPLETE"

/-- Outcome of one poll-loop iteration of `convergeStackState`. -/
inductive StackStatusKind where
  | success
  | failure
  | continuePolling
deriving DecidableEq, Repr

/-- The `switch *stackInfo.StackStatus` of `convergeStackState`:
terminal-success, terminal-failure and the keep-polling default. -/
def classifyStackStatus (status : String) : StackStatusKind :=
  if status = StackStatusCreateComplete ∨ status = StackStatusUpdateComplete then
    StackStatusKind.success
  else if status = StackStatusDeleteComplete ∨ status = StackStatusCreateFailed ∨
      status = StackStatusDeleteFailed ∨ status = StackStatusRollbackFailed ∨
      status = StackStatusRollbackComplete then
    StackStatusKind.failure
  else
    StackStatusKind.continuePolling

----------------------------------------------------------------------------
-- stackCapabilities
----------------------------------------------------------------------------

/-- Inner loop of `stackCapabilities`: is `CAPABILITY_IAM` already present? -/
def capabilityIAMFound (capabilities : List String) : Bool :=
  capabilities.foldl (fun found c => found || (c = "CAPABILITY_IAM")) false

/-- Models `stackCapabilities`: walk the template resources, and for each
`AWS::IAM::Role` resource append `CAPABILITY_IAM` unless already present. -/
def stackCapabilities (template : Template) : List String :=
  template.resources.foldl
    (fun capabilities r =>
      if r.2.resourceType = "AWS::IAM::Role" then
        if capabilityIAMFound capabilities then capabilities
        else capabilities ++ ["CAPABILITY_IAM"]
      else capabilities)
    []

/-- The number of `AWS::IAM::Role` resources in a template. -/
def iamRoleCount (template : Template) : Nat :=
  (template.resources.filter (fun r => r.2.resourceType = "AWS::IAM::Role")).length

----------------------------------------------------------------------------
-- createUploadStep error aggregation
----------------------------------------------------------------------------

/-- The error-aggregation tail of `createUploadStep` (lines 750–756): when
the collected `uploadErrors` list is non-empty, the Go code initialises
`errorText`, then iterates over the errors, but the `return` statement sits
inside the loop body, so the function returns during the first iteration
with `errorText += fmt.Sprintf("%s%s\n", errorText, err)` applied once. -/
def uploadStepErrorText (uploadErrors : List String) : Option String :=
  if uploadErrors.length > 0 then
    match uploadErrors with
    | [] => none
    | e :: _ =>
        let errorText := "Encountered multiple errors during upload:\n"
        some (errorText ++ (errorText ++ e ++ "\n"))
  else
    none

----------------------------------------------------------------------------
-- Environment of external collaborators
----------------------------------------------------------------------------

/-- One CloudFormation stack event, as consumed by the failure logging of
`convergeStackState`. -/
structure StackEvent where
  resourceStatus : String
  resourceType : String
  logicalResourceId : String
  resourceStatusReason : String
deriving DecidableEq, Repr

/-- The environment of external collaborators: every remote AWS endpoint,
the file system, the build toolchain and the template-library export helpers
that `provision.go` calls but does not define.  Each field models the
response the outside world gives to one kind of call; the embedding records
the call itself in the effect trace. -/
structure Env where
  /-- Models `iam.GetRole`: role name to ARN, or a lookup error. -/
  getRole : String → Except String String
  /-- Models `s3.GetBucketLifecycleConfiguration`: the rule statuses, or an error
  string (classified by substring inside `ensureExpirationPolicy`). -/
  getBucketLifecycle : String → Except String (List String)
  /-- Models `s3manager.Uploader.Upload`: bucket and key to result location. -/
  s3Upload : String → String → Except String String
  /-- Models `os.Open` on a local path. -/
  openFile : String → Except String Unit
  /-- The `go build` invocation of `createPackageStep`. -/
  goBuild : Except String Unit
  /-- Models `os.Stat` on the built binary: its size, or an error. -/
  statBinary : Except String Nat
  /-- Models `ioutil.TempFile`: name prefix to created path. -/
  tempFile : String → Except String String
  /-- Models `addToZip` on the site resource directory. -/
  addSiteToZip : String → Except String Unit
  /-- Models `cloudformation.DescribeStacks` for the existence probe of
  `stackExists`: `ok` means the stack exists, an error is classified by the
  "does not exist" substring check. -/
  describeStacks : String → Except String Unit
  /-- Models `cloudformation.CreateStack`: service name to stack ID. -/
  createStack : String → Except String String
  /-- Models `cloudformation.UpdateStack`: service name to stack ID. -/
  updateStack : String → Except String String
  /-- Successive `DescribeStacks` results observed by the poll loop of
  `convergeStackState`: each entry is an error or a stack status string. -/
  pollStatuses : List (Except String String)
  /-- Models `DescribeStackEvents`, pagination already folded into one list. -/
  stackEvents : Except String (List StackEvent)
  /-- Modelled from the spec: `LambdaAWSInfo.export` (defined outside the
  provisioning file) is an opaque export fragment taking the service name,
  bucket, code key, role map and template, and returning the mutated
  template or an error. -/
  lambdaExport : String → String → String → List (String × StringExpr) →
    LambdaAWSInfo → Template → Except String Template
  /-- Modelled from the spec: `API.export`, the routing-layer export
  fragment writing into a scratch template. -/
  apiExport : API → String → String → List (String × StringExpr) →
    Template → Except String Template
  /-- Modelled from the spec: `safeMergeTemplates`, merging the scratch
  routing template into the shared one. -/
  mergeTemplates : Template → Template → Except String Template
  /-- Modelled from the spec: `S3Site.export`; its return value is
  discarded by `ensureCloudFormationStack`, so it is modelled as the
  template it leaves behind. -/
  siteExport : S3Site → String → String → String →
    List (String × TemplateOutput) → List (String × StringExpr) →
    Template → Template
  /-- Modelled from the spec: `outputsForResource`, the outputs a named
  dependency contributes to a function's metadata. -/
  outputsFor : Template → String → Option MetaValue
  /-- Modelled from the spec: `safeMetadataInsert`, the non-destructive
  metadata merge applied to a resource. -/
  metaInsert : TemplateResource → String → MetaValue → TemplateResource
  /-- Models `json.Marshal` of the completed template. -/
  marshal : Template → Except String String
  /-- Models `json.MarshalIndent` of the template body string. -/
  marshalIndent : String → Except String String
  /-- Models `crypto/sha1` content hash, hex encoded. -/
  sha1hex : String → String
  /-- Modelled from the spec: `sanitizedName`, the service-name sanitizer
  defined outside the provisioning file. -/
  sanitizedName : String → String
  /-- Modelled from the spec: the `SpartaVersion` constant defined outside
  the provisioning file. -/
  spartaVersion : String

----------------------------------------------------------------------------
-- ensureExpirationPolicy and uploadLocalFileToS3
----------------------------------------------------------------------------

/-- Models `ensureExpirationPolicy`: in no-op mode log and return nil without any
remote call; otherwise fetch the bucket lifecycle configuration; an error
containing `NoSuchLifecycleConfiguration` only produces a warning, any
other error aborts, and a successful response only affects logging. -/
def ensureExpirationPolicy (env : Env) (s3Bucket : String) (noop : Bool) :
    Except String Unit × List Effect :=
  if noop then
    (Except.ok (), [])
  else
    match env.getBucketLifecycle s3Bucket with
    | Except.error e =>
        if goStringContains e "NoSuchLifecycleConfiguration" then
          (Except.ok (), [Effect.getBucketLifecycle s3Bucket])
        else
          (Except.error ("Failed to fetch S3 Bucket Policy: " ++ e),
            [Effect.getBucketLifecycle s3Bucket])
    | Except.ok _rules => (Except.ok (), [Effect.getBucketLifecycle s3Bucket])

/-- Models `uploadLocalFileToS3`: ensure the expiration policy, open the local
archive, then upload (skipped with a log line in no-op mode) and return the
key name.  The deferred cleanup that closes the reader and removes the
local file is registered only after the `os.Open` succeeds, so the
`fileRemove` effect appears exactly on the paths that reach that point. -/
def uploadLocalFileToS3 (env : Env) (packagePath s3Bucket : String)
    (noop : Bool) : Except String String × List Effect :=
  match ensureExpirationPolicy env s3Bucket noop with
  | (Except.error e, tr) =>
      (Except.error ("Failed to ensure bucket policies: " ++ e), tr)
  | (Except.ok _, tr) =>
    match env.openFile packagePath with
    | Except.error e =>
        (Except.error ("Failed to open local archive for S3 upload: " ++ e),
          tr ++ [Effect.fileOpen packagePath])
    | Except.ok _ =>
      let keyName := filepathBase packagePath
      if noop then
        (Except.ok keyName,
          tr ++ [Effect.fileOpen packagePath, Effect.fileRemove packagePath])
      else
        match env.s3Upload s3Bucket keyName with
        | Except.error e =>
            (Except.error e,
              tr ++ [Effect.fileOpen packagePath,
                Effect.s3Upload s3Bucket keyName,
                Effect.fileRemove packagePath])
        | Except.ok _location =>
            (Except.ok keyName,
              tr ++ [Effect.fileOpen packagePath,
                Effect.s3Upload s3Bucket keyName,
                Effect.fileRemove packagePath])

----------------------------------------------------------------------------
-- verifyIAMRoles
----------------------------------------------------------------------------

/-- The mutable context fields `verifyIAMRoles` reads and writes: the role
name map and the shared CloudFormation template. -/
structure RolesState where
  lambdaIAMRoleNameMap : List (String × StringExpr)
  cfTemplate : Template
deriving DecidableEq, Repr

/-- Modelled from the spec: `IAMRoleDefinition.toResource` (defined outside
the provisioning file) produces a new `AWS::IAM::Role` template resource. -/
def iamRoleResource : TemplateResource := { resourceType := "AWS::IAM::Role" }

/-- The descriptor loop of `verifyIAMRoles`.  Because the Go context is
shared and mutable, the role map and template are threaded through and
returned even on the error path. -/
def verifyIAMRolesLoop (env : Env) :
    List LambdaAWSInfo → RolesState → List Effect →
    Except String Unit × RolesState × List Effect
  | [], st, tr => (Except.ok (), st, tr)
  | l :: rest, st, tr =>
    if l.roleName ≠ "" ∧ l.roleDefinition.isSome then
      (Except.error
          ("Both RoleName and RoleDefinition defined for lambda: " ++
            l.lambdaFnName),
        st, tr)
    else if l.roleName ≠ "" then
      match listLookup st.lambdaIAMRoleNameMap l.roleName with
      | some _ => verifyIAMRolesLoop env rest st tr
      | none =>
        match env.getRole l.roleName with
        | Except.error e =>
            (Except.error e, st, tr ++ [Effect.getRole l.roleName])
        | Except.ok arn =>
            verifyIAMRolesLoop env rest
              { st with lambdaIAMRoleNameMap := listInsert st.lambdaIAMRoleNameMap l.roleName (StringExpr.lit arn) }
              (tr ++ [Effect.getRole l.roleName])
    else
      match l.roleDefinition with
      | none =>
          -- A descriptor with neither a role name nor a role definition
          -- dereferences the nil `RoleDefinition` pointer in Go.
          (Except.error
              "runtime error: invalid memory address or nil pointer dereference",
            st, tr)
      | some d =>
        match listLookup st.lambdaIAMRoleNameMap d.logicalName with
        | some _ => verifyIAMRolesLoop env rest st tr
        | none =>
            verifyIAMRolesLoop env rest
              { lambdaIAMRoleNameMap := listInsert st.lambdaIAMRoleNameMap d.logicalName (StringExpr.getAtt d.logicalName "Arn"),
                cfTemplate := st.cfTemplate.addResource d.logicalName iamRoleResource }
              tr

/-- Models `verifyIAMRoles`: reset the role map, then run the descriptor loop
over the shared template. -/
def verifyIAMRoles (env : Env) (lambdaAWSInfos : List LambdaAWSInfo)
    (cfTemplate : Template) :
    Except String Unit × RolesState × List Effect :=
  verifyIAMRolesLoop env lambdaAWSInfos
    { lambdaIAMRoleNameMap := [], cfTemplate := cfTemplate } []

/-- The number of `iam.GetRole` calls for a given role name in a trace. -/
def countRoleLookups (tr : List Effect) (name : String) : Nat :=
  (tr.filter (fun e => e = Effect.getRole name)).length

/-- The role-map key under which a descriptor's role is resolved: its
pre-existing role name, or the logical id of its role definition. -/
def roleKey (l : LambdaAWSInfo) : Option String :=
  if l.roleName ≠ "" then some l.roleName
  else
    match l.roleDefinition with
    | some d => some d.logicalName
    | none => none

----------------------------------------------------------------------------
-- Workflow context and the package/upload steps
----------------------------------------------------------------------------

/-- The workflow context (`workflowContext`): the single mutable object
threaded through every step.  `s3SiteContext` is an `Option` because the Go
field is a pointer; `hasTemplateWriter` records whether an output sink was
supplied. -/
structure WorkflowContext where
  noop : Bool
  serviceName : String
  serviceDescription : String
  lambdaAWSInfos : List LambdaAWSInfo
  api : Option API
  s3SiteContext : Option S3SiteCtx
  cfTemplate : Template
  lambdaIAMRoleNameMap : List (String × StringExpr) := []
  s3Bucket : String
  s3LambdaZipKey : String := ""
  hasTemplateWriter : Bool
  rollbackFunctions : List RollbackAction := []
deriving DecidableEq, Repr

/-- Models `workflowContext.registerRollback`. -/
def registerRollback (ctx : WorkflowContext) (a : RollbackAction) :
    WorkflowContext :=
  { ctx with rollbackFunctions := ctx.rollbackFunctions ++ [a] }

/-- The effects of running the rollback registry: each registered
`createS3RollbackFunc` closure deletes its uploaded object unless its
captured no-op flag is set; failures are only logged. -/
def rollbackEffects (actions : List RollbackAction) : List Effect :=
  actions.foldr
    (fun a acc =>
      (if a.noop then [] else [Effect.s3Delete a.s3Bucket a.s3Key]) ++ acc)
    []

/-- The context constructed by `Provision` (lines 1117–1132), including the
`ctx.cfTemplate.Description = serviceDescription` assignment.  The
`s3SiteContext` wrapper is always constructed, holding the possibly-nil
site descriptor inside it. -/
def mkWorkflowContext (noop : Bool) (serviceName serviceDescription : String)
    (lambdaAWSInfos : List LambdaAWSInfo) (api : Option API)
    (site : Option S3Site) (s3Bucket : String) (hasTemplateWriter : Bool) :
    WorkflowContext :=
  { noop := noop,
    serviceName := serviceName,
    serviceDescription := serviceDescription,
    lambdaAWSInfos := lambdaAWSInfos,
    api := api,
    s3SiteContext := some { s3Site := site },
    cfTemplate := { newTemplate with description := serviceDescription },
    s3Bucket := s3Bucket,
    hasTemplateWriter := hasTemplateWriter }

/-- Models `createPackageStep`: build the binary for linux/amd64, stat it, create
the temporary archive file, and assemble the archive (binary, generated
NodeJS adapter, embedded scripts, optional node_modules bundle — archive
content is local work with no remote effect).  The deferred removal of the
intermediate binary runs on every path after a successful build. -/
def createPackageStep (env : Env) (ctx : WorkflowContext) :
    Except String String × List Effect :=
  let sanitized := env.sanitizedName ctx.serviceName
  let executableOutput := sanitized ++ ".lambda.amd64"
  match env.goBuild with
  | Except.error e => (Except.error e, [Effect.goBuild])
  | Except.ok _ =>
    match env.statBinary with
    | Except.error _ =>
        (Except.error "Failed to stat build output",
          [Effect.goBuild, Effect.fileRemove executableOutput])
    | Except.ok _size =>
      match env.tempFile sanitized with
      | Except.error _ =>
          (Except.error "Failed to create temporary file",
            [Effect.goBuild, Effect.fileRemove executableOutput])
      | Except.ok tmpName =>
        match env.openFile executableOutput with
        | Except.error _ =>
            (Except.error ("Failed to open file: " ++ executableOutput),
              [Effect.goBuild, Effect.fileCreateTemp sanitized,
                Effect.fileRemove executableOutput])
        | Except.ok _ =>
            (Except.ok tmpName,
              [Effect.goBuild, Effect.fileCreateTemp sanitized,
                Effect.fileOpen executableOutput,
                Effect.fileRemove executableOutput])

/-- The optional S3-site unit of `createUploadStep`: create a temporary
archive, zip the site resources into it, upload, and on success produce
the site key and a rollback registration.  Returns the accumulated errors,
the value written to `s3SiteLambdaZipKey`, the rollback registrations and
the trace. -/
def siteUploadUnit (env : Env) (ctx : WorkflowContext) (sc : S3SiteCtx)
    (site : S3Site) :
    List String × String × List RollbackAction × List Effect :=
  let tempName := ctx.serviceName ++ "-S3Site"
  match env.tempFile tempName with
  | Except.error _ =>
      (["Failed to create temporary S3 site archive file"],
        sc.s3SiteLambdaZipKey, [], [])
  | Except.ok tmpName =>
    match env.addSiteToZip site.resources with
    | Except.error e =>
        ([e], sc.s3SiteLambdaZipKey, [], [Effect.fileCreateTemp tempName])
    | Except.ok _ =>
      match uploadLocalFileToS3 env tmpName ctx.s3Bucket ctx.noop with
      | (Except.error e, sTr) =>
          ([e], "", [], Effect.fileCreateTemp tempName :: sTr)
      | (Except.ok k, sTr) =>
          ([], k, [{ s3Bucket := ctx.s3Bucket, s3Key := k, noop := ctx.noop }],
            Effect.fileCreateTemp tempName :: sTr)

/-- Models `createUploadStep`: the primary archive upload and, when a site
descriptor is present, the site unit, joined before the error check.  The
two Go goroutines write to disjoint context fields and are joined before
any read, so they are sequenced here with the primary unit first.  The
error check then runs the (buggy) aggregation of `uploadStepErrorText`. -/
def createUploadStep (env : Env) (packagePath : String)
    (ctx : WorkflowContext) :
    Except String Unit × WorkflowContext × List Effect :=
  let primOut := uploadLocalFileToS3 env packagePath ctx.s3Bucket ctx.noop
  let primTr := primOut.2
  let primKey := match primOut.1 with
    | Except.ok k => k
    | Except.error _ => ""
  let primErrs : List String := match primOut.1 with
    | Except.ok _ => []
    | Except.error e => [e]
  let primRollbacks : List RollbackAction := match primOut.1 with
    | Except.ok k => [{ s3Bucket := ctx.s3Bucket, s3Key := k, noop := ctx.noop }]
    | Except.error _ => []
  match ctx.s3SiteContext with
  | none =>
      -- Reading `ctx.s3SiteContext.s3Site` through a nil wrapper pointer
      -- panics in Go.
      (Except.error
          "runtime error: invalid memory address or nil pointer dereference",
        { ctx with s3LambdaZipKey := primKey,
                   rollbackFunctions := ctx.rollbackFunctions ++ primRollbacks },
        primTr)
  | some sc =>
    let siteOut : List String × String × List RollbackAction × List Effect :=
      match sc.s3Site with
      | none => ([], sc.s3SiteLambdaZipKey, [], [])
      | some site => siteUploadUnit env ctx sc site
    let ctx2 :=
      { ctx with s3LambdaZipKey := primKey,
                 s3SiteContext := some { sc with s3SiteLambdaZipKey := siteOut.2.1 },
                 rollbackFunctions :=
                   ctx.rollbackFunctions ++ primRollbacks ++ siteOut.2.2.1 }
    let uploadErrors := primErrs ++ siteOut.1
    match uploadStepErrorText uploadErrors with
    | some msg => (Except.error msg, ctx2, primTr ++ siteOut.2.2.2)
    | none => (Except.ok (), ctx2, primTr ++ siteOut.2.2.2)

----------------------------------------------------------------------------
-- Stack convergence
----------------------------------------------------------------------------

/-- Models `stackExists`: probe via `DescribeStacks`; an error containing
"does not exist" means the stack is absent, any other error aborts. -/
def stackExistsM (env : Env) (stackNameOrID : String) :
    Except String Bool × List Effect :=
  match env.describeStacks stackNameOrID with
  | Except.ok _ => (Except.ok true, [Effect.describeStacks stackNameOrID])
  | Except.error e =>
      if goStringContains e "does not exist" then
        (Except.ok false, [Effect.describeStacks stackNameOrID])
      else
        (Except.error e, [Effect.describeStacks stackNameOrID])

/-- The poll loop of `convergeStackState`: sleep, describe the stack, and
classify its status until a terminal state.  The environment supplies the
successive describe results; exhausting them models a run observed only up
to that point and is mapped to the enumeration failure of the source. -/
def pollStackStatus (stackID : String) :
    List (Except String String) → Except String Bool × List Effect
  | [] =>
      (Except.error ("Failed to enumerate stack info: " ++ stackID), [])
  | r :: rest =>
    match r with
    | Except.error e => (Except.error e, [Effect.describeStacks stackID])
    | Except.ok status =>
      match classifyStackStatus status with
      | StackStatusKind.success =>
          (Except.ok true, [Effect.describeStacks stackID])
      | StackStatusKind.failure =>
          (Except.ok false, [Effect.describeStacks stackID])
      | StackStatusKind.continuePolling =>
        match pollStackStatus stackID rest with
        | (res, tr) => (res, Effect.describeStacks stackID :: tr)

/-- Models `convergeStackState`: decide create-vs-update, submit the request,
poll to a terminal status; on terminal failure fetch the event history and
abort with an error naming the service. -/
def convergeStackState (env : Env) (_cfTemplateURL : String)
    (ctx : WorkflowContext) : Except String Unit × List Effect :=
  match stackExistsM env ctx.serviceName with
  | (Except.error e, tr) => (Except.error e, tr)
  | (Except.ok stackWasPresent, tr) =>
    let request := if stackWasPresent then env.updateStack ctx.serviceName
      else env.createStack ctx.serviceName
    let requestEffect := if stackWasPresent then Effect.updateStack ctx.serviceName
      else Effect.createStack ctx.serviceName
    match request with
    | Except.error e => (Except.error e, tr ++ [requestEffect])
    | Except.ok stackID =>
      match pollStackStatus stackID env.pollStatuses with
      | (Except.error e, trP) => (Except.error e, tr ++ [requestEffect] ++ trP)
      | (Except.ok true, trP) => (Except.ok (), tr ++ [requestEffect] ++ trP)
      | (Except.ok false, trP) =>
        match env.stackEvents with
        | Except.error e =>
            (Except.error e,
              tr ++ [requestEffect] ++ trP ++ [Effect.describeStackEvents stackID])
        | Except.ok _events =>
            (Except.error ("Failed to provision: " ++ ctx.serviceName),
              tr ++ [requestEffect] ++ trP ++ [Effect.describeStackEvents stackID])

----------------------------------------------------------------------------
-- Template synthesis and ensureCloudFormationStack
----------------------------------------------------------------------------

/-- Modelled from the spec: the stack-region metadata key (`TagStackRegion`,
defined outside the provisioning file). -/
def TagStackRegion : String := "Sparta:StackRegion"
/-- Modelled from the spec: the stack-id metadata key (`TagStackID`). -/
def TagStackID : String := "Sparta:StackID"
/-- Modelled from the spec: the stack-name metadata key (`TagStackName`). -/
def TagStackName : String := "Sparta:StackName"

/-- The per-function export loop at the head of
`ensureCloudFormationStack`: abort on the first export error. -/
def exportLambdas (env : Env) (serviceName s3Bucket s3Key : String)
    (roleMap : List (String × StringExpr)) :
    List LambdaAWSInfo → Template → Except String Template
  | [], t => Except.ok t
  | l :: rest, t =>
    match env.lambdaExport serviceName s3Bucket s3Key roleMap l t with
    | Except.error e => Except.error e
    | Except.ok t2 => exportLambdas env serviceName s3Bucket s3Key roleMap rest t2

/-- The metadata pass over the completed template: for every
`AWS::Lambda::Function` resource, merge the outputs of each `DependsOn`
dependency into its metadata, then inject the three stack identity
references. -/
def metadataPass (env : Env) (t : Template) : Template :=
  { t with resources := t.resources.map (fun r =>
      if r.2.resourceType = "AWS::Lambda::Function" then
        let withDeps := r.2.dependsOn.foldl
          (fun res dep =>
            match env.outputsFor t dep with
            | some outs => env.metaInsert res dep outs
            | none => res)
          r.2
        let r1 := env.metaInsert withDeps TagStackRegion (MetaValue.ref "AWS::Region")
        let r2 := env.metaInsert r1 TagStackID (MetaValue.ref "AWS::StackId")
        let r3 := env.metaInsert r2 TagStackName (MetaValue.ref "AWS::StackName")
        (r.1, r3)
      else r) }

/-- The fixed Sparta home URL output value. -/
def spartaHomeURL : String := "http://gosparta.io"

/-- The keyname used in the CloudFormation output storing the Sparta home
URL (`OutputSpartaHomeKey`). -/
def OutputSpartaHomeKey : String := "SpartaHome"

/-- The keyname used in the CloudFormation output storing the Sparta
version (`OutputSpartaVersionKey`). -/
def OutputSpartaVersionKey : String := "SpartaVersion"

/-- The synthesis portion of `ensureCloudFormationStack` (lines 936–1009):
export every function descriptor, export and merge the optional API
Gateway scratch template, export the optional site (its error is discarded
by the source), append the two fixed outputs, and run the metadata pass.
Pure local computation: no effect trace. -/
def synthesizeTemplate (env : Env) (ctx : WorkflowContext) :
    Except String Template :=
  match exportLambdas env ctx.serviceName ctx.s3Bucket ctx.s3LambdaZipKey
      ctx.lambdaIAMRoleNameMap ctx.lambdaAWSInfos ctx.cfTemplate with
  | Except.error e => Except.error e
  | Except.ok t1 =>
    let apiStage : Except String (Template × Template) :=
      match ctx.api with
      | none => Except.ok (t1, newTemplate)
      | some api =>
        match env.apiExport api ctx.s3Bucket ctx.s3LambdaZipKey
            ctx.lambdaIAMRoleNameMap newTemplate with
        | Except.error _ =>
            Except.error "Failed to export APIGateway template resources"
        | Except.ok apiT =>
          match env.mergeTemplates apiT t1 with
          | Except.error _ =>
              Except.error "Failed to export APIGateway template resources"
          | Except.ok t2 => Except.ok (t2, apiT)
    match apiStage with
    | Except.error e => Except.error e
    | Except.ok (t2, apiT) =>
      match ctx.s3SiteContext with
      | none =>
          Except.error
            "runtime error: invalid memory address or nil pointer dereference"
      | some sc =>
        let t3 := match sc.s3Site with
          | none => t2
          | some site =>
              env.siteExport site ctx.s3Bucket ctx.s3LambdaZipKey
                sc.s3SiteLambdaZipKey apiT.outputs ctx.lambdaIAMRoleNameMap t2
        let homeOut : TemplateOutput :=
          { description := "Sparta Home", value := StringExpr.lit spartaHomeURL }
        let versionOut : TemplateOutput :=
          { description := "Sparta Version", value := StringExpr.lit env.spartaVersion }
        let outs := listInsert (listInsert t3.outputs OutputSpartaHomeKey homeOut) OutputSpartaVersionKey versionOut
        let t4 := { t3 with outputs := outs }
        Except.ok (metadataPass env t4)

/-- Models `ensureCloudFormationStack`: synthesize the template, serialize it,
derive the hashed storage key, write the pretty-printed body to the sink
when one was supplied, and then — only outside no-op mode — upload the
template, register its rollback and converge the stack. -/
def ensureCloudFormationStackStep (env : Env) (ctx : WorkflowContext) :
    Except String Unit × WorkflowContext × List Effect :=
  match synthesizeTemplate env ctx with
  | Except.error e => (Except.error e, ctx, [])
  | Except.ok tmpl =>
    let ctx1 := { ctx with cfTemplate := tmpl }
    match env.marshal tmpl with
    | Except.error e => (Except.error e, ctx1, [])
    | Except.ok contentBody =>
      let s3keyName := env.sanitizedName ctx.serviceName ++ "-" ++
        env.sha1hex contentBody ++ "-cf.json"
      match env.marshalIndent contentBody with
      | Except.error e => (Except.error e, ctx1, [])
      | Except.ok formatted =>
        let sinkTr := if ctx.hasTemplateWriter then [Effect.writeSink formatted]
          else []
        if ctx.noop then
          (Except.ok (), ctx1, sinkTr)
        else
          match env.s3Upload ctx.s3Bucket s3keyName with
          | Except.error e =>
              (Except.error e, ctx1,
                sinkTr ++ [Effect.s3Upload ctx.s3Bucket s3keyName])
          | Except.ok location =>
            let ctx2 := registerRollback ctx1
              { s3Bucket := ctx.s3Bucket, s3Key := s3keyName, noop := ctx.noop }
            match convergeStackState env location ctx2 with
            | (Except.error e, trC) =>
                (Except.error e, ctx2,
                  sinkTr ++ [Effect.s3Upload ctx.s3Bucket s3keyName] ++ trC)
            | (Except.ok _, trC) =>
                (Except.ok (), ctx2,
                  sinkTr ++ [Effect.s3Upload ctx.s3Bucket s3keyName] ++ trC)

----------------------------------------------------------------------------
-- Provision
----------------------------------------------------------------------------

/-- The workflow chain of `Provision`:
`verifyIAMRoles → createPackageStep → createUploadStep →
ensureCloudFormationStack`, threading the mutable context; any step error
invokes the rollback registry on the context as mutated so far and
propagates that error. -/
def provisionWorkflow (env : Env) (ctx : WorkflowContext) :
    Except String WorkflowContext × List Effect :=
  match verifyIAMRoles env ctx.lambdaAWSInfos ctx.cfTemplate with
  | (vRes, vSt, vTr) =>
    match vRes, ({ ctx with lambdaIAMRoleNameMap := vSt.lambdaIAMRoleNameMap, cfTemplate := vSt.cfTemplate } : WorkflowContext) with
    | Except.error e, ctx1 =>
        (Except.error e, vTr ++ rollbackEffects ctx1.rollbackFunctions)
    | Except.ok _, ctx1 =>
      match createPackageStep env ctx1 with
      | (Except.error e, pTr) =>
          (Except.error e,
            vTr ++ pTr ++ rollbackEffects ctx1.rollbackFunctions)
      | (Except.ok packagePath, pTr) =>
        match createUploadStep env packagePath ctx1 with
        | (Except.error e, ctx2, uTr) =>
            (Except.error e,
              vTr ++ pTr ++ uTr ++ rollbackEffects ctx2.rollbackFunctions)
        | (Except.ok _, ctx2, uTr) =>
          match ensureCloudFormationStackStep env ctx2 with
          | (Except.error e, ctx3, eTr) =>
              (Except.error e,
                vTr ++ pTr ++ uTr ++ eTr ++
                  rollbackEffects ctx3.rollbackFunctions)
          | (Except.ok _, ctx3, eTr) =>
              (Except.ok ctx3, vTr ++ pTr ++ uTr ++ eTr)

/-- Models `Provision`: construct the context (the AWS session handle is
modelled from the spec as side-effect-free handle construction), fail
immediately on an empty descriptor list, then run the workflow chain.
Returns the final context on success, paired with the full effect
trace. -/
def provision (env : Env) (noop : Bool)
    (serviceName serviceDescription : String)
    (lambdaAWSInfos : List LambdaAWSInfo) (api : Option API)
    (site : Option S3Site) (s3Bucket : String) (hasTemplateWriter : Bool) :
    Except String WorkflowContext × List Effect :=
  if lambdaAWSInfos.length ≤ 0 then
    (Except.error "No lambda functions provided to Sparta.Provision()", [])
  else
    provisionWorkflow env (mkWorkflowContext noop serviceName
      serviceDescription lambdaAWSInfos api site s3Bucket hasTemplateWriter)

----------------------------------------------------------------------------
-- The generic workflow engine (the loop of Provision, lines 1139–1154)
----------------------------------------------------------------------------

/-- A workflow step (`workflowStep`): a function from the context to the
mutated context, an optional next step, and an optional error. -/
inductive WStep (σ ε : Type) where
  | mk : (σ → σ × Option (WStep σ ε) × Option ε) → WStep σ ε

/-- Apply a step to a context. -/
def WStep.run {σ ε : Type} : WStep σ ε → σ → σ × Option (WStep σ ε) × Option ε
  | WStep.mk f, s => f s

/-- The observable outcome of the engine loop: success with the final
context, failure carrying the propagated error together with the rollback
functions that were invoked, or fuel exhaustion (the loop still running
after the given number of iterations). -/
inductive EngineResult (σ ε ρ : Type) where
  | succeeded (finalCtx : σ) (stepsRun : Nat)
  | failed (err : ε) (invokedRollbacks : List ρ) (stepsRun : Nat)
  | running (ctx : σ) (stepsRun : Nat)

/-- The engine loop of `Provision`: run the current step; on error invoke
the rollback registry (read from the mutated context) and propagate that
same error; on nil next step stop successfully; otherwise continue.
`fuel` bounds the observed iterations; `stepsRun` counts executed steps. -/
def runEngine {σ ε ρ : Type} (rollbacks : σ → List ρ) :
    Nat → WStep σ ε → σ → Nat → EngineResult σ ε ρ
  | 0, _, ctx, stepsRun => EngineResult.running ctx stepsRun
  | fuel + 1, step, ctx, stepsRun =>
    match step.run ctx with
    | (ctx2, _, some e) =>
        EngineResult.failed e (rollbacks ctx2) (stepsRun + 1)
    | (ctx2, none, none) => EngineResult.succeeded ctx2 (stepsRun + 1)
    | (ctx2, some next, none) =>
        runEngine rollbacks fuel next ctx2 (stepsRun + 1)

----------------------------------------------------------------------------
-- A concrete environment for closed evaluations
----------------------------------------------------------------------------

/-- A concrete environment in which every collaborator succeeds: used to
evaluate the embedded workflow on closed inputs. -/
def testEnv : Env :=
  { getRole := fun name =>
      if name = "existing-role" then
        Except.ok "arn:aws:iam::123456789012:role/existing-role"
      else Except.error ("NoSuchEntity: " ++ name),
    getBucketLifecycle := fun _ => Except.ok ["Enabled"],
    s3Upload := fun _ key => Except.ok ("https://s3.amazonaws.com/" ++ key),
    openFile := fun _ => Except.ok (),
    goBuild := Except.ok (),
    statBinary := Except.ok 1024,
    tempFile := fun pre => Except.ok (pre ++ "123456789"),
    addSiteToZip := fun _ => Except.ok (),
    describeStacks := fun name =>
      Except.error ("Stack with id " ++ name ++ " does not exist"),
    createStack := fun name => Except.ok ("stack-id-" ++ name),
    updateStack := fun name => Except.ok ("stack-id-" ++ name),
    pollStatuses := [Except.ok "CREATE_IN_PROGRESS", Except.ok "CREATE_COMPLETE"],
    stackEvents := Except.ok [],
    lambdaExport := fun _ _ _ _ l t =>
      Except.ok (t.addResource (l.lambdaFnName ++ "Resource")
        { resourceType := "AWS::Lambda::Function" }),
    apiExport := fun _ _ _ _ t => Except.ok t,
    mergeTemplates := fun _src dst => Except.ok dst,
    siteExport := fun _ _ _ _ _ _ t => t,
    outputsFor := fun _ _ => none,
    metaInsert := fun r k v => { r with metadata := r.metadata ++ [(k, v)] },
    marshal := fun t => Except.ok ("template:" ++ t.description),
    marshalIndent := fun s => Except.ok ("indented:" ++ s),
    sha1hex := fun _ => "deadbeef",
    sanitizedName := fun s => s,
    spartaVersion := "0.5.5" }

----------------------------------------------------------------------------
-- C3: stack-status classification
----------------------------------------------------------------------------

/-- C3: the poll-loop classification maps `CREATE_COMPLETE` and
`UPDATE_COMPLETE` to success; `DELETE_COMPLETE`, `CREATE_FAILED`,
`DELETE_FAILED`, `ROLLBACK_FAILED` and `ROLLBACK_COMPLETE` to failure; and
every other status string to keep-polling. -/
theorem convergence_status_classification :
    (classifyStackStatus StackStatusCreateComplete = StackStatusKind.success ∧
      classifyStackStatus StackStatusUpdateComplete = StackStatusKind.success) ∧
    (classifyStackStatus StackStatusDeleteComplete = StackStatusKind.failure ∧
      classifyStackStatus StackStatusCreateFailed = StackStatusKind.failure ∧
      classifyStackStatus StackStatusDeleteFailed = StackStatusKind.failure ∧
      classifyStackStatus StackStatusRollbackFailed = StackStatusKind.failure ∧
      classifyStackStatus StackStatusRollbackComplete = StackStatusKind.failure) ∧
    (∀ status : String,
      status ∉ [StackStatusCreateComplete, StackStatusUpdateComplete,
        StackStatusDeleteComplete, StackStatusCreateFailed,
        StackStatusDeleteFailed, StackStatusRollbackFailed,
        StackStatusRollbackComplete] →
      classifyStackStatus status = StackStatusKind.continuePolling) := by
  refine ⟨by constructor <;> decide, ⟨by decide, by decide, by decide, by decide, by decide⟩, ?_⟩
  intro status h
  simp only [List.mem_cons, List.not_mem_nil, or_false, not_or] at h
  obtain ⟨h1, h2, h3, h4, h5, h6, h7⟩ := h
  simp [classifyStackStatus, h1, h2, h3, h4, h5, h6, h7]

/-- Closed instance of C3: a non-terminal status keeps polling. -/
theorem convergence_status_classification_witness :
    classifyStackStatus "UPDATE_ROLLBACK_IN_PROGRESS" =
      StackStatusKind.continuePolling :=
  convergence_status_classification.2.2 "UPDATE_ROLLBACK_IN_PROGRESS" (by decide)

----------------------------------------------------------------------------
-- C4: stackCapabilities
----------------------------------------------------------------------------

/-- The loop body of `stackCapabilities`. -/
def capsStep (capabilities : List String) (r : String × TemplateResource) :
    List String :=
  if r.2.resourceType = "AWS::IAM::Role" then
    if capabilityIAMFound capabilities then capabilities
    else capabilities ++ ["CAPABILITY_IAM"]
  else capabilities

theorem stackCapabilities_eq_foldl (template : Template) :
    stackCapabilities template = template.resources.foldl capsStep [] := rfl

theorem capsStep_roleFree (caps : List String) (r : String × TemplateResource)
    (h : r.2.resourceType ≠ "AWS::IAM::Role") : capsStep caps r = caps := by
  simp [capsStep, h]

theorem capsFoldl_roleFree (rs : List (String × TemplateResource))
    (caps : List String)
    (h : ∀ r ∈ rs, r.2.resourceType ≠ "AWS::IAM::Role") :
    rs.foldl capsStep caps = caps := by
  induction rs generalizing caps with
  | nil => rfl
  | cons r rest ih =>
      rw [List.foldl_cons, capsStep_roleFree caps r (h r (List.mem_cons_self r rest))]
      exact ih caps (fun x hx => h x (List.mem_cons_of_mem r hx))

theorem capabilityIAMFound_single : capabilityIAMFound ["CAPABILITY_IAM"] = true := by
  decide

theorem capsFoldl_saturated (rs : List (String × TemplateResource)) :
    rs.foldl capsStep ["CAPABILITY_IAM"] = ["CAPABILITY_IAM"] := by
  induction rs with
  | nil => rfl
  | cons r rest ih =>
      rw [List.foldl_cons]
      have hstep : capsStep ["CAPABILITY_IAM"] r = ["CAPABILITY_IAM"] := by
        by_cases hr : r.2.resourceType = "AWS::IAM::Role"
        · simp [capsStep, hr, capabilityIAMFound_single]
        · simp [capsStep, hr]
      rw [hstep, ih]

theorem capsFoldl_hasRole (rs : List (String × TemplateResource))
    (h : ∃ r ∈ rs, r.2.resourceType = "AWS::IAM::Role") :
    rs.foldl capsStep [] = ["CAPABILITY_IAM"] := by
  induction rs with
  | nil => simp at h
  | cons r rest ih =>
      rw [List.foldl_cons]
      by_cases hr : r.2.resourceType = "AWS::IAM::Role"
      · have hstep : capsStep [] r = ["CAPABILITY_IAM"] := by
          simp [capsStep, hr, capabilityIAMFound]
        rw [hstep, capsFoldl_saturated]
      · have hstep : capsStep [] r = [] := capsStep_roleFree [] r hr
        rw [hstep]
        apply ih
        rcases h with ⟨x, hx, hxr⟩
        rcases List.mem_cons.mp hx with hEq | hMem
        · exact absurd (hEq ▸ hxr) hr
        · exact ⟨x, hMem, hxr⟩

/-- C4: a template with zero `AWS::IAM::Role` resources yields an empty
capability list, and a template with one or more such resources yields
exactly `["CAPABILITY_IAM"]` — a single entry with no duplicates. -/
theorem stackCapabilities_spec (template : Template) :
    (iamRoleCount template = 0 → stackCapabilities template = []) ∧
    (0 < iamRoleCount template →
      stackCapabilities template = ["CAPABILITY_IAM"]) := by
  constructor
  · intro h0
    rw [stackCapabilities_eq_foldl]
    apply capsFoldl_roleFree
    intro r hr
    intro hEq
    have hmem : r ∈ template.resources.filter
        (fun r => r.2.resourceType = "AWS::IAM::Role") := by
      rw [List.mem_filter]
      exact ⟨hr, by simp [hEq]⟩
    have hlen := List.length_pos_of_mem hmem
    rw [iamRoleCount] at h0
    omega
  · intro hpos
    rw [stackCapabilities_eq_foldl]
    apply capsFoldl_hasRole
    have hne : template.resources.filter
        (fun r => r.2.resourceType = "AWS::IAM::Role") ≠ [] := by
      intro hnil
      rw [iamRoleCount, hnil] at hpos
      simp at hpos
    rcases List.exists_mem_of_ne_nil _ hne with ⟨x, hx⟩
    rw [List.mem_filter] at hx
    exact ⟨x, hx.1, by simpa using hx.2⟩

/-- Closed instance of C4: a template with two role resources requests
exactly one `CAPABILITY_IAM` entry. -/
theorem stackCapabilities_spec_witness :
    stackCapabilities
      { description := "", outputs := [],
        resources := [("RoleA", iamRoleResource), ("RoleB", iamRoleResource),
          ("Fn", { resourceType := "AWS::Lambda::Function" })] } =
      ["CAPABILITY_IAM"] :=
  (stackCapabilities_spec _).2 (by decide)

----------------------------------------------------------------------------
-- C5: upload error aggregation (code bug)
----------------------------------------------------------------------------

/-- C5 (code bug): with two failed upload units the step aborts, but the
aggregate error message contains only the first unit's message — the
`return` inside the aggregation loop of `createUploadStep` exits on the
first iteration, so the second failure is dropped. -/
theorem uploadStep_error_aggregation_drops_later_errors :
    ((uploadStepErrorText ["primary upload failed", "site upload failed"]).isSome
        = true) ∧
    (goStringContains
        ((uploadStepErrorText
          ["primary upload failed", "site upload failed"]).getD "")
        "primary upload failed" = true) ∧
    (goStringContains
        ((uploadStepErrorText
          ["primary upload failed", "site upload failed"]).getD "")
        "site upload failed" = false) := by
  decide

----------------------------------------------------------------------------
-- Association-list lemmas
----------------------------------------------------------------------------

theorem listLookup_listInsert_self {α : Type} (m : List (String × α))
    (k : String) (v : α) : listLookup (listInsert m k v) k = some v := by
  induction m with
  | nil => simp [listInsert, listLookup]
  | cons p rest ih =>
      obtain ⟨k0, v0⟩ := p
      by_cases h : k0 = k
      · simp [listInsert, listLookup, h]
      · simp [listInsert, listLookup, h, ih]

theorem listLookup_listInsert_ne {α : Type} (m : List (String × α))
    (k k2 : String) (v : α) (h : k ≠ k2) :
    listLookup (listInsert m k v) k2 = listLookup m k2 := by
  induction m with
  | nil => simp [listInsert, listLookup, h]
  | cons p rest ih =>
      obtain ⟨k0, v0⟩ := p
      by_cases h0 : k0 = k
      · subst h0
        simp [listInsert, listLookup, h]
      · by_cases h2 : k0 = k2
        · simp [listInsert, listLookup, h0, h2, Ne.symm h]
        · simp [listInsert, listLookup, h0, h2, ih]

theorem listLookup_listInsert_isSome {α : Type} (m : List (String × α))
    (k k2 : String) (v : α) (h : (listLookup m k2).isSome = true) :
    (listLookup (listInsert m k v) k2).isSome = true := by
  by_cases hk : k = k2
  · subst hk
    simp [listLookup_listInsert_self]
  · rw [listLookup_listInsert_ne m k k2 v hk]
    exact h

theorem countRoleLookups_append (tr1 tr2 : List Effect) (n : String) :
    countRoleLookups (tr1 ++ tr2) n =
      countRoleLookups tr1 n + countRoleLookups tr2 n := by
  simp [countRoleLookups, List.filter_append]

theorem countRoleLookups_getRole (m n : String) :
    countRoleLookups [Effect.getRole m] n = if m = n then 1 else 0 := by
  by_cases h : m = n
  · simp [countRoleLookups, h]
  · simp [countRoleLookups, List.filter, h]

----------------------------------------------------------------------------
-- verifyIAMRoles lemmas
----------------------------------------------------------------------------

theorem verifyLoop_map_mono (env : Env) (rest : List LambdaAWSInfo) :
    ∀ (st : RolesState) (tr : List Effect) (res : Except String Unit)
      (st2 : RolesState) (tr2 : List Effect),
    verifyIAMRolesLoop env rest st tr = (res, st2, tr2) →
    ∀ k, (listLookup st.lambdaIAMRoleNameMap k).isSome = true →
      (listLookup st2.lambdaIAMRoleNameMap k).isSome = true := by
  induction rest with
  | nil =>
      intro st tr res st2 tr2 heq k hk
      simp only [verifyIAMRolesLoop] at heq
      cases heq
      exact hk
  | cons l rest ih =>
      intro st tr res st2 tr2 heq k hk
      rw [verifyIAMRolesLoop] at heq
      split at heq
      · cases heq; exact hk
      · split at heq
        · split at heq
          · exact ih _ _ _ _ _ heq k hk
          · split at heq
            · cases heq; exact hk
            · exact ih _ _ _ _ _ heq k
                (listLookup_listInsert_isSome _ _ _ _ hk)
        · split at heq
          · cases heq; exact hk
          · split at heq
            · exact ih _ _ _ _ _ heq k hk
            · exact ih _ _ _ _ _ heq k
                (listLookup_listInsert_isSome _ _ _ _ hk)

theorem verifyLoop_lookup_bound (env : Env) (rest : List LambdaAWSInfo) :
    ∀ (st : RolesState) (tr : List Effect) (res : Except String Unit)
      (st2 : RolesState) (tr2 : List Effect),
    verifyIAMRolesLoop env rest st tr = (res, st2, tr2) →
    (∀ n, countRoleLookups tr n ≤ 1) →
    (∀ n, 1 ≤ countRoleLookups tr n →
      (listLookup st.lambdaIAMRoleNameMap n).isSome = true) →
    ∀ n, countRoleLookups tr2 n ≤ 1 := by
  induction rest with
  | nil =>
      intro st tr res st2 tr2 heq h1 _h2 n
      simp only [verifyIAMRolesLoop] at heq
      cases heq
      exact h1 n
  | cons l rest ih =>
      intro st tr res st2 tr2 heq h1 h2 n
      rw [verifyIAMRolesLoop] at heq
      split at heq
      · cases heq; exact h1 n
      · split at heq
        · rename_i hname
          split at heq
          · exact ih _ _ _ _ _ heq h1 h2 n
          · rename_i hlook
            -- A fresh lookup for l.roleName is performed here; it cannot
            -- already be in the trace, since a traced name is in the map.
            have hfresh : countRoleLookups tr l.roleName = 0 := by
              by_contra hpos
              have h1le : 1 ≤ countRoleLookups tr l.roleName := by omega
              have := h2 l.roleName h1le
              rw [hlook] at this
              simp at this
            have hbound : ∀ m, countRoleLookups (tr ++ [Effect.getRole l.roleName]) m ≤ 1 := by
              intro m
              rw [countRoleLookups_append, countRoleLookups_getRole]
              by_cases hm : l.roleName = m
              · subst hm
                rw [hfresh]
                simp
              · have := h1 m
                simp [hm]
                omega
            split at heq
            · cases heq
              exact hbound n
            · refine ih _ _ _ _ _ heq hbound ?_ n
              intro m hm
              by_cases hmn : l.roleName = m
              · subst hmn
                simp
                exact listLookup_listInsert_self _ _ _ ▸ rfl
              · rw [countRoleLookups_append, countRoleLookups_getRole] at hm
                simp [hmn] at hm
                rw [listLookup_listInsert_ne _ _ _ _ hmn]
                exact h2 m hm
        · split at heq
          · cases heq; exact h1 n
          · split at heq
            · exact ih _ _ _ _ _ heq h1 h2 n
            · refine ih _ _ _ _ _ heq h1 ?_ n
              intro m hm
              simp only []
              exact listLookup_listInsert_isSome _ _ _ _ (h2 m hm)

theorem verifyLoop_records (env : Env) (rest : List LambdaAWSInfo) :
    ∀ (st : RolesState) (tr : List Effect) (st2 : RolesState)
      (tr2 : List Effect),
    verifyIAMRolesLoop env rest st tr = (Except.ok (), st2, tr2) →
    ∀ l ∈ rest, ∀ k, roleKey l = some k →
      (listLookup st2.lambdaIAMRoleNameMap k).isSome = true := by
  induction rest with
  | nil =>
      intro st tr st2 tr2 _ l hl
      simp at hl
  | cons l0 rest ih =>
      intro st tr st2 tr2 heq l hl k hk
      rw [verifyIAMRolesLoop] at heq
      split at heq
      · cases heq
      · rcases List.mem_cons.mp hl with hEq | hMem
        · -- The head descriptor's key is recorded before the loop advances.
          subst hEq
          split at heq
          · rename_i hname
            rw [roleKey, if_pos hname] at hk
            cases hk
            split at heq
            · rename_i v hlook
              exact verifyLoop_map_mono env rest _ _ _ _ _ heq _ (by rw [hlook]; rfl)
            · split at heq
              · cases heq
              · exact verifyLoop_map_mono env rest _ _ _ _ _ heq _
                  (by rw [listLookup_listInsert_self]; rfl)
          · rename_i hname
            rw [roleKey, if_neg hname] at hk
            split at heq
            · cases heq
            · rename_i d hdef
              rw [hdef] at hk
              cases hk
              split at heq
              · rename_i v hlook
                exact verifyLoop_map_mono env rest _ _ _ _ _ heq _ (by rw [hlook]; rfl)
              · exact verifyLoop_map_mono env rest _ _ _ _ _ heq _
                  (by rw [listLookup_listInsert_self]; rfl)
        · -- Descriptors in the tail are handled by the induction hypothesis.
          split at heq
          · split at heq
            · exact ih _ _ _ _ heq l hMem k hk
            · split at heq
              · cases heq
              · exact ih _ _ _ _ heq l hMem k hk
          · split at heq
            · cases heq
            · split at heq
              · exact ih _ _ _ _ heq l hMem k hk
              · exact ih _ _ _ _ heq l hMem k hk

/-- C7: in every run of the role-resolution step, the remote role lookup
for any given name is performed at most once, and on success every
descriptor's role key (pre-existing name or logical id) is recorded in the
shared role map before the step advances. -/
theorem verifyIAMRoles_dedup (env : Env) (lambdas : List LambdaAWSInfo)
    (tmpl : Template) (res : Except String Unit) (st : RolesState)
    (tr : List Effect)
    (heq : verifyIAMRoles env lambdas tmpl = (res, st, tr)) :
    (∀ name, countRoleLookups tr name ≤ 1) ∧
    (res = Except.ok () → ∀ l ∈ lambdas, ∀ k, roleKey l = some k →
      (listLookup st.lambdaIAMRoleNameMap k).isSome = true) := by
  constructor
  · exact verifyLoop_lookup_bound env lambdas _ _ _ _ _ heq
      (by intro n; simp [countRoleLookups])
      (by intro n hn; simp [countRoleLookups] at hn)
  · intro hok
    subst hok
    exact verifyLoop_records env lambdas _ _ _ _ heq

/-- Closed instance of C7: two descriptors sharing `existing-role` trigger
exactly one lookup, and the name is recorded in the role map. -/
theorem verifyIAMRoles_dedup_witness :
    countRoleLookups (verifyIAMRoles testEnv
      [{ lambdaFnName := "fnA", roleName := "existing-role" },
       { lambdaFnName := "fnB", roleName := "existing-role" }]
      newTemplate).2.2 "existing-role" ≤ 1 ∧
    (listLookup (verifyIAMRoles testEnv
      [{ lambdaFnName := "fnA", roleName := "existing-role" },
       { lambdaFnName := "fnB", roleName := "existing-role" }]
      newTemplate).2.1.lambdaIAMRoleNameMap "existing-role").isSome = true :=
  ⟨(verifyIAMRoles_dedup testEnv
      [{ lambdaFnName := "fnA", roleName := "existing-role" },
       { lambdaFnName := "fnB", roleName := "existing-role" }]
      newTemplate _ _ _ rfl).1 "existing-role",
   (verifyIAMRoles_dedup testEnv
      [{ lambdaFnName := "fnA", roleName := "existing-role" },
       { lambdaFnName := "fnB", roleName := "existing-role" }]
      newTemplate _ _ _ rfl).2 rfl
      { lambdaFnName := "fnA", roleName := "existing-role" }
      (List.mem_cons_self _ _) "existing-role" (by decide)⟩

----------------------------------------------------------------------------
-- C6: conflicting role specification
----------------------------------------------------------------------------

theorem verifyLoop_append (env : Env) (xs ys : List LambdaAWSInfo) :
    ∀ (st : RolesState) (tr : List Effect),
    verifyIAMRolesLoop env (xs ++ ys) st tr =
      match verifyIAMRolesLoop env xs st tr with
      | (Except.ok _, st2, tr2) => verifyIAMRolesLoop env ys st2 tr2
      | (Except.error e, st2, tr2) => (Except.error e, st2, tr2) := by
  induction xs with
  | nil => intro st tr; rfl
  | cons l rest ih =>
      intro st tr
      rw [List.cons_append, verifyIAMRolesLoop, verifyIAMRolesLoop]
      split
      · rfl
      · split
        · split
          · exact ih st tr
          · split
            · rfl
            · exact ih _ _
        · split
          · rfl
          · split
            · exact ih st tr
            · exact ih _ _

/-- C6 corrected: a descriptor specifying both a pre-existing role name and
a role definition aborts the run with the conflict error naming that
descriptor, and no lookup is performed and no role resource is added for
the conflicting descriptor or for any descriptor after it — the state and
trace are exactly what the descriptors before it produced. -/
theorem verifyIAMRoles_conflict_aborts (env : Env) (tmpl : Template)
    (pre post : List LambdaAWSInfo) (l : LambdaAWSInfo)
    (hname : l.roleName ≠ "") (hdef : l.roleDefinition.isSome = true)
    (st1 : RolesState) (tr1 : List Effect)
    (hpre : verifyIAMRolesLoop env pre
      { lambdaIAMRoleNameMap := [], cfTemplate := tmpl } [] =
        (Except.ok (), st1, tr1)) :
    verifyIAMRoles env (pre ++ l :: post) tmpl =
      (Except.error ("Both RoleName and RoleDefinition defined for lambda: " ++
          l.lambdaFnName),
        st1, tr1) := by
  rw [verifyIAMRoles, verifyLoop_append, hpre]
  simp only [verifyIAMRolesLoop]
  rw [if_pos ⟨hname, hdef⟩]

/-- Counterexample to C6 as stated: with a conflicting third descriptor,
the step aborts with the conflict error, yet a role lookup has been
performed and a role resource has been added to the template for the
earlier descriptors of the same run — the run does have partial effects. -/
theorem verifyIAMRoles_conflict_counterexample :
    ((verifyIAMRoles testEnv
      [{ lambdaFnName := "fnA", roleName := "existing-role" },
       { lambdaFnName := "fnB", roleDefinition := some { logicalName := "FnBRole" } },
       { lambdaFnName := "fnC", roleName := "existing-role",
         roleDefinition := some { logicalName := "FnCRole" } }]
      newTemplate).1 =
      Except.error "Both RoleName and RoleDefinition defined for lambda: fnC") ∧
    (countRoleLookups (verifyIAMRoles testEnv
      [{ lambdaFnName := "fnA", roleName := "existing-role" },
       { lambdaFnName := "fnB", roleDefinition := some { logicalName := "FnBRole" } },
       { lambdaFnName := "fnC", roleName := "existing-role",
         roleDefinition := some { logicalName := "FnCRole" } }]
      newTemplate).2.2 "existing-role" = 1) ∧
    ((verifyIAMRoles testEnv
      [{ lambdaFnName := "fnA", roleName := "existing-role" },
       { lambdaFnName := "fnB", roleDefinition := some { logicalName := "FnBRole" } },
       { lambdaFnName := "fnC", roleName := "existing-role",
         roleDefinition := some { logicalName := "FnCRole" } }]
      newTemplate).2.1.cfTemplate.resources.length = 1) := by
  refine ⟨rfl, ?_, rfl⟩
  decide

/-- Closed instance of the amended C6: a conflict after one clean
descriptor aborts with the conflict error and leaves exactly the earlier
descriptor's lookup and state behind. -/
theorem verifyIAMRoles_conflict_aborts_witness :
    verifyIAMRoles testEnv
      [{ lambdaFnName := "fnA", roleName := "existing-role" },
       { lambdaFnName := "fnC", roleName := "existing-role",
         roleDefinition := some { logicalName := "FnCRole" } }]
      newTemplate =
      (Except.error "Both RoleName and RoleDefinition defined for lambda: fnC",
        { lambdaIAMRoleNameMap := [("existing-role",
            StringExpr.lit "arn:aws:iam::123456789012:role/existing-role")],
          cfTemplate := newTemplate },
        [Effect.getRole "existing-role"]) :=
  verifyIAMRoles_conflict_aborts testEnv newTemplate
    [{ lambdaFnName := "fnA", roleName := "existing-role" }] []
    { lambdaFnName := "fnC", roleName := "existing-role",
      roleDefinition := some { logicalName := "FnCRole" } }
    (by decide) rfl _ _ rfl

----------------------------------------------------------------------------
-- C1: empty function-descriptor list
----------------------------------------------------------------------------

/-- C1: a call of `Provision` with an empty function-descriptor list
returns the configuration error immediately: no workflow step runs and the
effect trace is empty — no network or file-system side effect occurs. -/
theorem provision_empty_descriptor_list (env : Env) (noop : Bool)
    (serviceName serviceDescription : String) (api : Option API)
    (site : Option S3Site) (s3Bucket : String) (hasTemplateWriter : Bool) :
    provision env noop serviceName serviceDescription [] api site s3Bucket
        hasTemplateWriter =
      (Except.error "No lambda functions provided to Sparta.Provision()", []) :=
  rfl

----------------------------------------------------------------------------
-- C2: engine error propagation with rollback
----------------------------------------------------------------------------

/-- C2: whenever the step the engine is about to run returns a non-nil
error, the engine invokes every rollback function registered in the
(step-mutated) context, returns that same error, and executes no further
step — the step count ends exactly one past the steps already run. -/
theorem engine_error_rolls_back_and_stops {σ ε ρ : Type}
    (rollbacks : σ → List ρ) (fuel : Nat)
    (f : σ → σ × Option (WStep σ ε) × Option ε) (ctx : σ) (stepsRun : Nat)
    (e : ε) (h : (f ctx).2.2 = some e) :
    runEngine rollbacks (fuel + 1) (WStep.mk f) ctx stepsRun =
      EngineResult.failed e (rollbacks (f ctx).1) (stepsRun + 1) := by
  rcases hfc : f ctx with ⟨ctx2, next, oe⟩
  rw [hfc] at h
  simp only at h
  subst h
  simp only [runEngine, WStep.run, hfc]

/-- Closed instance of C2: a failing first step yields the failure with
the full rollback list of the mutated context and step count one. -/
theorem engine_error_rolls_back_and_stops_witness :
    runEngine (fun l : List Nat => l) 1
      (WStep.mk (fun l => (l ++ [7], none, some "step failure"))) [3] 0 =
      EngineResult.failed "step failure" [3, 7] 1 :=
  engine_error_rolls_back_and_stops (fun l => l) 0
    (fun l => (l ++ [7], none, some "step failure")) [3] 0 "step failure" rfl

----------------------------------------------------------------------------
-- C9: temporary-file cleanup in uploadLocalFileToS3
----------------------------------------------------------------------------

/-- Counterexample to C9 as stated: when the expiration-policy check fails
with an unexpected error, `uploadLocalFileToS3` returns before the deferred
cleanup is registered, and the local temporary file is not deleted. -/
theorem uploadLocalFileToS3_no_cleanup_counterexample :
    ((uploadLocalFileToS3
        { testEnv with getBucketLifecycle := fun _ => Except.error "AccessDenied" }
        "dir/archive.zip" "the-bucket" false).1 =
      Except.error
        "Failed to ensure bucket policies: Failed to fetch S3 Bucket Policy: AccessDenied") ∧
    (Effect.fileRemove "dir/archive.zip" ∉
      (uploadLocalFileToS3
        { testEnv with getBucketLifecycle := fun _ => Except.error "AccessDenied" }
        "dir/archive.zip" "the-bucket" false).2) := by
  constructor
  · rfl
  · decide

/-- C9 corrected: on every path on which the expiration-policy check passes
and the local file opens successfully, the temporary file is deleted before
`uploadLocalFileToS3` returns, whether the upload succeeds, fails, or is
bypassed in no-op mode; if the policy check or the open fails, the function
returns without deleting the file. -/
theorem uploadLocalFileToS3_cleanup (env : Env)
    (packagePath s3Bucket : String) (noop : Bool)
    (hPolicy : (ensureExpirationPolicy env s3Bucket noop).1 = Except.ok ())
    (hOpen : env.openFile packagePath = Except.ok ()) :
    Effect.fileRemove packagePath ∈
      (uploadLocalFileToS3 env packagePath s3Bucket noop).2 := by
  rcases hE : ensureExpirationPolicy env s3Bucket noop with ⟨res, trE⟩
  rw [hE] at hPolicy
  simp only at hPolicy
  subst hPolicy
  rw [uploadLocalFileToS3, hE, hOpen]
  by_cases hn : noop
  · simp [hn]
  · simp only [hn, if_false, Bool.false_eq_true]
    rcases env.s3Upload s3Bucket (filepathBase packagePath) with e | loc <;> simp

/-- Closed instance of the corrected C9: with a healthy bucket policy the
temporary file is removed. -/
theorem uploadLocalFileToS3_cleanup_witness :
    Effect.fileRemove "dir/archive.zip" ∈
      (uploadLocalFileToS3 testEnv "dir/archive.zip" "the-bucket" false).2 :=
  uploadLocalFileToS3_cleanup testEnv "dir/archive.zip" "the-bucket" false rfl rfl

----------------------------------------------------------------------------
-- C10: the site-context wrapper is always constructed
----------------------------------------------------------------------------

/-- C10: for every call of `Provision` — including calls with no static
site and no API descriptor — the constructed context's site-context
wrapper is non-nil, and absence of a site is signalled only by the inner
descriptor field, so reads of the wrapper never dereference nil. -/
theorem siteContext_wrapper_always_constructed (noop : Bool)
    (serviceName serviceDescription : String) (lambdas : List LambdaAWSInfo)
    (api : Option API) (site : Option S3Site) (s3Bucket : String)
    (hasTemplateWriter : Bool) :
    ∃ sc : S3SiteCtx,
      (mkWorkflowContext noop serviceName serviceDescription lambdas api site
        s3Bucket hasTemplateWriter).s3SiteContext = some sc ∧
      sc.s3Site = site :=
  ⟨{ s3Site := site }, rfl, rfl⟩

----------------------------------------------------------------------------
-- C8: no-op mode lemmas
----------------------------------------------------------------------------

/-- The calls the no-op claim excludes: S3 uploads, stack create/update
requests and describe-stack calls. -/
def isStackOrUploadCall : Effect → Bool
  | Effect.s3Upload _ _ => true
  | Effect.createStack _ => true
  | Effect.updateStack _ => true
  | Effect.describeStacks _ => true
  | _ => false

theorem uploadLocalFileToS3_noop_trace (env : Env) (p b : String) :
    ∀ eff ∈ (uploadLocalFileToS3 env p b true).2,
      isStackOrUploadCall eff = false := by
  intro eff hm
  rcases ho : env.openFile p with e | u <;>
    simp [uploadLocalFileToS3, ensureExpirationPolicy, ho] at hm
  · subst hm; rfl
  · rcases hm with hm | hm <;> (subst hm; rfl)

theorem siteUploadUnit_noop_trace (env : Env) (ctx : WorkflowContext)
    (sc : S3SiteCtx) (site : S3Site) (hn : ctx.noop = true) :
    ∀ eff ∈ (siteUploadUnit env ctx sc site).2.2.2,
      isStackOrUploadCall eff = false := by
  intro eff hm
  rw [siteUploadUnit] at hm
  rcases ht : env.tempFile (ctx.serviceName ++ "-S3Site") with e | tmpName <;>
    simp only [ht] at hm
  · simp at hm
  · rcases hz : env.addSiteToZip site.resources with e2 | u <;>
      simp only [hz] at hm
    · simp at hm
      subst hm; rfl
    · rw [hn] at hm
      rcases hu : uploadLocalFileToS3 env tmpName ctx.s3Bucket true with ⟨res, trU⟩
      simp only [hu] at hm
      have hInner : ∀ x ∈ trU, isStackOrUploadCall x = false := by
        intro x hx
        exact uploadLocalFileToS3_noop_trace env tmpName ctx.s3Bucket x
          (by rw [hu]; exact hx)
      rcases res with e3 | k <;> simp at hm <;>
        rcases hm with hm | hm
      · subst hm; rfl
      · exact hInner eff hm
      · subst hm; rfl
      · exact hInner eff hm

theorem createUploadStep_noop_trace (env : Env) (p : String)
    (ctx : WorkflowContext) (hn : ctx.noop = true) :
    ∀ eff ∈ (createUploadStep env p ctx).2.2,
      isStackOrUploadCall eff = false := by
  intro eff hm
  rw [createUploadStep, hn] at hm
  rcases hu : uploadLocalFileToS3 env p ctx.s3Bucket true with ⟨primRes, primTr⟩
  simp only [hu] at hm
  have hPrim : ∀ x ∈ primTr, isStackOrUploadCall x = false := by
    intro x hx
    exact uploadLocalFileToS3_noop_trace env p ctx.s3Bucket x (by rw [hu]; exact hx)
  rcases hs : ctx.s3SiteContext with _ | sc <;> simp only [hs] at hm
  · exact hPrim eff hm
  · rcases hsite : sc.s3Site with _ | site <;> simp only [hsite] at hm
    · split at hm <;>
        (simp only [List.append_nil] at hm
         exact hPrim eff hm)
    · rcases hsu : siteUploadUnit env ctx sc site with ⟨sErrs, sKey, sRb, sTr⟩
      simp only [hsu] at hm
      have hSite : ∀ x ∈ sTr, isStackOrUploadCall x = false := by
        intro x hx
        exact siteUploadUnit_noop_trace env ctx sc site hn x (by rw [hsu]; exact hx)
      split at hm <;>
        (rcases List.mem_append.mp hm with h | h
         · exact hPrim eff h
         · exact hSite eff h)

theorem createPackageStep_trace (env : Env) (ctx : WorkflowContext) :
    ∀ eff ∈ (createPackageStep env ctx).2,
      isStackOrUploadCall eff = false := by
  intro eff hm
  rw [createPackageStep] at hm
  rcases hb : env.goBuild with e | u <;> simp only [hb] at hm
  · simp at hm
    subst hm; rfl
  · rcases hst : env.statBinary with e2 | sz <;> simp only [hst] at hm
    · simp at hm
      rcases hm with hm | hm <;> (subst hm; rfl)
    · rcases htf : env.tempFile (env.sanitizedName ctx.serviceName)
        with e3 | tmp <;> simp only [htf] at hm
      · simp at hm
        rcases hm with hm | hm <;> (subst hm; rfl)
      · rcases hof : env.openFile (env.sanitizedName ctx.serviceName ++ ".lambda.amd64")
          with e4 | u2 <;> simp only [hof] at hm
        · simp at hm
          rcases hm with hm | hm | hm <;> (subst hm; rfl)
        · simp at hm
          rcases hm with hm | hm | hm | hm <;> (subst hm; rfl)

theorem verifyLoop_trace_getRole (env : Env) (rest : List LambdaAWSInfo) :
    ∀ (st : RolesState) (tr : List Effect) (res : Except String Unit)
      (st2 : RolesState) (tr2 : List Effect),
    verifyIAMRolesLoop env rest st tr = (res, st2, tr2) →
    ∀ eff ∈ tr2, eff ∈ tr ∨ ∃ n, eff = Effect.getRole n := by
  induction rest with
  | nil =>
      intro st tr res st2 tr2 heq eff hm
      simp only [verifyIAMRolesLoop] at heq
      cases heq
      exact Or.inl hm
  | cons l rest ih =>
      intro st tr res st2 tr2 heq eff hm
      rw [verifyIAMRolesLoop] at heq
      split at heq
      · cases heq; exact Or.inl hm
      · split at heq
        · split at heq
          · exact ih _ _ _ _ _ heq eff hm
          · split at heq
            · cases heq
              rcases List.mem_append.mp hm with h | h
              · exact Or.inl h
              · simp at h
                exact Or.inr ⟨l.roleName, h⟩
            · rcases ih _ _ _ _ _ heq eff hm with h | h
              · rcases List.mem_append.mp h with h2 | h2
                · exact Or.inl h2
                · simp at h2
                  exact Or.inr ⟨l.roleName, h2⟩
              · exact Or.inr h
        · split at heq
          · cases heq; exact Or.inl hm
          · split at heq
            · exact ih _ _ _ _ _ heq eff hm
            · exact ih _ _ _ _ _ heq eff hm

theorem rollbackEffects_all_noop (actions : List RollbackAction)
    (h : ∀ a ∈ actions, a.noop = true) : rollbackEffects actions = [] := by
  induction actions with
  | nil => rfl
  | cons a rest ih =>
      rw [rollbackEffects, List.foldr_cons]
      rw [h a (List.mem_cons_self a rest)]
      simp only [if_true, List.nil_append]
      exact ih (fun x hx => h x (List.mem_cons_of_mem a hx))

theorem createUploadStep_rollbacks_noop (env : Env) (p : String)
    (ctx : WorkflowContext) (hn : ctx.noop = true)
    (hprev : ∀ a ∈ ctx.rollbackFunctions, a.noop = true) :
    ∀ a ∈ (createUploadStep env p ctx).2.1.rollbackFunctions, a.noop = true := by
  intro a ha
  rw [createUploadStep] at ha
  rcases hu : uploadLocalFileToS3 env p ctx.s3Bucket ctx.noop with ⟨primRes, primTr⟩
  simp only [hu] at ha
  have hPrimRb : ∀ x ∈ (match primRes with
      | Except.ok k => [({ s3Bucket := ctx.s3Bucket, s3Key := k, noop := ctx.noop } : RollbackAction)]
      | Except.error _ => ([] : List RollbackAction)), x.noop = true := by
    rcases primRes with e | k <;> simp
    exact hn
  rcases hs : ctx.s3SiteContext with _ | sc <;> simp only [hs] at ha
  · rcases List.mem_append.mp ha with h | h
    · exact hprev a h
    · exact hPrimRb a h
  · rcases hsite : sc.s3Site with _ | site <;> simp only [hsite] at ha
    · split at ha <;>
        (rcases List.mem_append.mp ha with h | h
         · rcases List.mem_append.mp h with h2 | h2
           · exact hprev a h2
           · exact hPrimRb a h2
         · simp at h)
    · rcases hsu : siteUploadUnit env ctx sc site with ⟨sErrs, sKey, sRb, sTr⟩
      simp only [hsu] at ha
      have hSiteRb : ∀ x ∈ sRb, x.noop = true := by
        intro x hx
        have hx2 : x ∈ (siteUploadUnit env ctx sc site).2.2.1 := by
          rw [hsu]; exact hx
        rw [siteUploadUnit] at hx2
        rcases htf : env.tempFile (ctx.serviceName ++ "-S3Site") with e | tmp <;>
          simp only [htf] at hx2
        · simp at hx2
        · rcases haz : env.addSiteToZip site.resources with e2 | u <;>
            simp only [haz] at hx2
          · simp at hx2
          · rcases huu : uploadLocalFileToS3 env tmp ctx.s3Bucket ctx.noop
              with ⟨r, t⟩
            simp only [huu] at hx2
            rcases r with e3 | k <;> simp at hx2
            rw [hx2, hn]
      split at ha <;>
        (rcases List.mem_append.mp ha with h | h
         · rcases List.mem_append.mp h with h2 | h2
           · exact hprev a h2
           · exact hPrimRb a h2
         · exact hSiteRb a h)

theorem createUploadStep_preserves_noop (env : Env) (p : String)
    (ctx : WorkflowContext) :
    (createUploadStep env p ctx).2.1.noop = ctx.noop := by
  rw [createUploadStep]
  dsimp only
  repeat' split
  all_goals rfl

theorem ensureCF_noop (env : Env) (ctx : WorkflowContext)
    (hn : ctx.noop = true) :
    (∀ eff ∈ (ensureCloudFormationStackStep env ctx).2.2,
        isStackOrUploadCall eff = false) ∧
    (ensureCloudFormationStackStep env ctx).2.1.rollbackFunctions =
      ctx.rollbackFunctions := by
  rw [ensureCloudFormationStackStep]
  rcases hsy : synthesizeTemplate env ctx with e | tmpl <;> simp only [hsy]
  · exact ⟨by intro eff hm; simp at hm, by trivial⟩
  · rcases hma : env.marshal tmpl with e2 | body <;> simp only [hma]
    · exact ⟨by intro eff hm; simp at hm, by trivial⟩
    · rcases hmi : env.marshalIndent body with e3 | fmt <;> simp only [hmi]
      · exact ⟨by intro eff hm; simp at hm, by trivial⟩
      · rw [hn]
        simp only [if_true]
        constructor
        · intro eff hm
          rcases hw : ctx.hasTemplateWriter <;> simp [hw] at hm
          subst hm; rfl
        · trivial

theorem provisionWorkflow_noop_trace (env : Env) (ctx : WorkflowContext)
    (hn : ctx.noop = true)
    (hrb : ∀ a ∈ ctx.rollbackFunctions, a.noop = true) :
    ∀ eff ∈ (provisionWorkflow env ctx).2, isStackOrUploadCall eff = false := by
  intro eff hm
  rw [provisionWorkflow] at hm
  rcases hv : verifyIAMRoles env ctx.lambdaAWSInfos ctx.cfTemplate
    with ⟨vRes, vSt, vTr⟩
  simp only [hv] at hm
  have hvTr : ∀ x ∈ vTr, isStackOrUploadCall x = false := by
    intro x hx
    rcases verifyLoop_trace_getRole env ctx.lambdaAWSInfos _ _ _ _ _ hv x hx
      with h | ⟨n, hgr⟩
    · simp at h
    · rw [hgr]; rfl
  have hre : rollbackEffects ctx.rollbackFunctions = [] :=
    rollbackEffects_all_noop _ hrb
  rcases vRes with e | u
  · simp only [hre, List.append_nil] at hm
    exact hvTr eff hm
  · have hc1noop : ({ ctx with lambdaIAMRoleNameMap := vSt.lambdaIAMRoleNameMap, cfTemplate := vSt.cfTemplate } : WorkflowContext).noop = true := hn
    have hc1rb : ∀ a ∈ ({ ctx with lambdaIAMRoleNameMap := vSt.lambdaIAMRoleNameMap, cfTemplate := vSt.cfTemplate } : WorkflowContext).rollbackFunctions, a.noop = true := hrb
    have hc1re : rollbackEffects ({ ctx with lambdaIAMRoleNameMap := vSt.lambdaIAMRoleNameMap, cfTemplate := vSt.cfTemplate } : WorkflowContext).rollbackFunctions = [] := hre
    generalize hg : ({ ctx with lambdaIAMRoleNameMap := vSt.lambdaIAMRoleNameMap, cfTemplate := vSt.cfTemplate } : WorkflowContext) = ctx1 at hm hc1noop hc1rb hc1re
    rcases hp : createPackageStep env ctx1 with ⟨pRes, pTr⟩
    simp only [hp] at hm
    have hpTr : ∀ x ∈ pTr, isStackOrUploadCall x = false := by
      intro x hx
      exact createPackageStep_trace env ctx1 x (by rw [hp]; exact hx)
    rcases pRes with e | packagePath
    · simp only [hc1re, List.append_nil] at hm
      rcases List.mem_append.mp hm with h | h
      · exact hvTr eff h
      · exact hpTr eff h
    · rcases hu : createUploadStep env packagePath ctx1 with ⟨uRes, ctx2, uTr⟩
      have huTr : ∀ x ∈ uTr, isStackOrUploadCall x = false := by
        intro x hx
        exact createUploadStep_noop_trace env packagePath ctx1 hc1noop x
          (by rw [hu]; exact hx)
      have hctx2rb : ∀ a ∈ ctx2.rollbackFunctions, a.noop = true := by
        intro a ha
        exact createUploadStep_rollbacks_noop env packagePath ctx1 hc1noop
          hc1rb a (by rw [hu]; exact ha)
      have hctx2noop : ctx2.noop = true := by
        have h2 := createUploadStep_preserves_noop env packagePath ctx1
        rw [hu] at h2
        simp only at h2
        rw [h2]
        exact hc1noop
      rcases uRes with e | u2
      · simp only [hu, rollbackEffects_all_noop _ hctx2rb, List.append_nil] at hm
        rcases List.mem_append.mp hm with h | h
        · rcases List.mem_append.mp h with h2 | h2
          · exact hvTr eff h2
          · exact hpTr eff h2
        · exact huTr eff h
      · rcases he : ensureCloudFormationStackStep env ctx2 with ⟨eRes, ctx3, eTr⟩
        have heTr : ∀ x ∈ eTr, isStackOrUploadCall x = false := by
          intro x hx
          exact (ensureCF_noop env ctx2 hctx2noop).1 x (by rw [he]; exact hx)
        have hctx3rb : ∀ a ∈ ctx3.rollbackFunctions, a.noop = true := by
          intro a ha
          apply hctx2rb
          have h3 := (ensureCF_noop env ctx2 hctx2noop).2
          rw [he] at h3
          simp only at h3
          rw [h3] at ha
          exact ha
        rcases eRes with e | u3
        · simp only [hu, he, rollbackEffects_all_noop _ hctx3rb,
            List.append_nil] at hm
          rcases List.mem_append.mp hm with h | h
          · rcases List.mem_append.mp h with h2 | h2
            · rcases List.mem_append.mp h2 with h3 | h3
              · exact hvTr eff h3
              · exact hpTr eff h3
            · exact huTr eff h2
          · exact heTr eff h
        · simp only [hu, he] at hm
          rcases List.mem_append.mp hm with h | h
          · rcases List.mem_append.mp h with h2 | h2
            · rcases List.mem_append.mp h2 with h3 | h3
              · exact hvTr eff h3
              · exact hpTr eff h3
            · exact huTr eff h2
          · exact heTr eff h

/-- C8: in a no-op run no S3 upload, no stack create or update request and
no describe-stack call is issued; the final step still synthesizes the full
template (its result context carries exactly the synthesized template, in
no-op mode as in live mode), and when an output sink is supplied the
pretty-printed template is written to it. -/
theorem noop_mode_behavior (env : Env)
    (serviceName serviceDescription : String)
    (lambdas : List LambdaAWSInfo) (api : Option API) (site : Option S3Site)
    (s3Bucket : String) (hasTemplateWriter : Bool) :
    (∀ eff ∈ (provision env true serviceName serviceDescription lambdas api
        site s3Bucket hasTemplateWriter).2, isStackOrUploadCall eff = false) ∧
    (∀ (ctx : WorkflowContext) (tmpl : Template),
      synthesizeTemplate env ctx = Except.ok tmpl →
      (ensureCloudFormationStackStep env ctx).2.1.cfTemplate = tmpl) ∧
    (∀ (ctx : WorkflowContext) (tmpl : Template) (body fmt : String),
      ctx.noop = true → ctx.hasTemplateWriter = true →
      synthesizeTemplate env ctx = Except.ok tmpl →
      env.marshal tmpl = Except.ok body →
      env.marshalIndent body = Except.ok fmt →
      Effect.writeSink fmt ∈ (ensureCloudFormationStackStep env ctx).2.2) := by
  refine ⟨?_, ?_, ?_⟩
  · intro eff hm
    rw [provision] at hm
    by_cases hlen : lambdas.length ≤ 0
    · rw [if_pos hlen] at hm
      simp at hm
    · rw [if_neg hlen] at hm
      refine provisionWorkflow_noop_trace env _ rfl ?_ eff hm
      intro a ha
      simp [mkWorkflowContext] at ha
  · intro ctx tmpl hsy
    rw [ensureCloudFormationStackStep]
    simp only [hsy]
    repeat' split
    all_goals rfl
  · intro ctx tmpl body fmt hn hw hsy hma hmi
    rw [ensureCloudFormationStackStep]
    simp only [hsy, hma, hmi, hn, hw]
    simp

/-- Closed instance of C8: a wholly local effect of a concrete no-op run
is not a remote stack or upload call, and the final step writes the
pretty-printed template to the supplied sink. -/
theorem noop_mode_behavior_witness :
    isStackOrUploadCall Effect.goBuild = false ∧
    Effect.writeSink "indented:template:svc" ∈
      (ensureCloudFormationStackStep testEnv
        (mkWorkflowContext true "demo" "svc" [] none none "the-bucket"
          true)).2.2 :=
  ⟨(noop_mode_behavior testEnv "demo" "svc"
      [{ lambdaFnName := "fn", roleDefinition := some { logicalName := "FnRole" } }]
      none none "the-bucket" true).1 Effect.goBuild (by decide),
   (noop_mode_behavior testEnv "demo" "svc" [] none none "the-bucket"
      true).2.2
     (mkWorkflowContext true "demo" "svc" [] none none "the-bucket" true)
     _ _ _ rfl rfl rfl rfl rfl⟩

end Sparta
